import Mathlib

/-!
# Verification of the look-at / orbit-path camera logic

Shallow embedding, over the real numbers, of the self-contained geometric
routines of this repository:

* `src/core/camera.py`:
  - `Camera._orient_camera_look_at` (the yaw/pitch look-at computation),
  - `Camera.add_camera` (projection validation and attribute authoring),
  - `Camera.generate_orbit_cameras` (camera ring around a target);
* `src/animation/animator.py`:
  - `animate_camera` (per-frame look-at, same yaw/pitch formula),
  - `generate_orbit_path` (circular orbit positions/targets per frame).

Machine floats are idealised to `ℝ`; Python exceptions (`ValueError` from
`math.asin` outside `[-1, 1]`, `ZeroDivisionError`) are modelled with
`Except String`, raised exactly where the Python code divides or calls
`math.asin`.  Dictionaries built in increasing key order are modelled as
association lists in insertion order.
-/

namespace USDSceneGen

open Real

/-- `Point3` / `Gf.Vec3d`: three real coordinates. -/
@[ext]
structure Vec3 where
  x : ℝ
  y : ℝ
  z : ℝ

/-- Componentwise difference, as in `target_pos - camera_pos`. -/
def Vec3.sub (a b : Vec3) : Vec3 :=
  ⟨a.x - b.x, a.y - b.y, a.z - b.z⟩

/-- Euclidean length of a vector, `Gf.Vec3d.GetLength()`. -/
noncomputable def Vec3.len (v : Vec3) : ℝ :=
  Real.sqrt (v.x ^ 2 + v.y ^ 2 + v.z ^ 2)

/-- `Gf.Vec3d.GetNormalized()` / `Normalize()`: scale the vector to unit
length, over the reals.  The library's floating-point epsilon guard
(`GF_MIN_VECTOR_LENGTH`) only engages within float tolerance of zero; in the
exact real model it reduces to division by the length, with the zero vector
mapped to the zero vector (as the library's `v / eps` also does), which the
convention `x / 0 = 0` captures. -/
noncomputable def Vec3.getNormalized (v : Vec3) : Vec3 :=
  ⟨v.x / v.len, v.y / v.len, v.z / v.len⟩

/-- Python `math.atan2 y x` over the reals (angle of the point `(x, y)`,
in `(-π, π]`), via the complex argument. -/
noncomputable def atan2 (y x : ℝ) : ℝ :=
  Complex.arg ⟨x, y⟩

/-- Python `math.degrees`. -/
noncomputable def degrees (r : ℝ) : ℝ :=
  r * (180 / Real.pi)

/-- Python `math.radians`. -/
noncomputable def radians (d : ℝ) : ℝ :=
  d * (Real.pi / 180)

/-- Python `math.asin` with its domain behaviour: on an argument outside
`[-1, 1]` it raises `ValueError: math domain error`; the source
(`camera.py` line 108, `animator.py` line 27) applies it to `direction[1]`
directly, with no clamping, so the domain branch is part of the model. -/
noncomputable def asinChecked (dy : ℝ) : Except String ℝ :=
  if -1 ≤ dy ∧ dy ≤ 1 then Except.ok (Real.arcsin dy)
  else Except.error "math domain error"

/-- `direction = (target_pos - camera_pos).GetNormalized()`
(`camera.py` line 104; identically `animator.py` lines 24-25). -/
noncomputable def lookDirection (position target : Vec3) : Vec3 :=
  (target.sub position).getNormalized

/-- `yaw = math.degrees(math.atan2(-direction[0], -direction[2]))`
(`camera.py` line 107; identically `animator.py` line 26). -/
noncomputable def lookYawDeg (position target : Vec3) : ℝ :=
  degrees (atan2 (-(lookDirection position target).x)
    (-(lookDirection position target).z))

/-- `pitch = math.degrees(math.asin(direction[1]))`
(`camera.py` line 108; identically `animator.py` line 27). -/
noncomputable def lookPitchDeg (position target : Vec3) : ℝ :=
  degrees (Real.arcsin (lookDirection position target).y)

/-- The look-at angle computation shared verbatim by
`Camera._orient_camera_look_at` (`camera.py` lines 100-108) and
`animate_camera` (`animator.py` lines 24-27):

    direction = (target_pos - camera_pos).GetNormalized()
    yaw = math.degrees(math.atan2(-direction[0], -direction[2]))
    pitch = math.degrees(math.asin(direction[1]))

Returns `(yaw_degrees, pitch_degrees)`, or propagates the `math.asin`
domain error. -/
noncomputable def computeLookAt (position target : Vec3) : Except String (ℝ × ℝ) :=
  match asinChecked (lookDirection position target).y with
  | Except.error e => Except.error e
  | Except.ok a => Except.ok (lookYawDeg position target, degrees a)

/-- Rotation about the global Y axis (right-handed), as `RotateYOp`. -/
noncomputable def rotY (θ : ℝ) (v : Vec3) : Vec3 :=
  ⟨v.x * Real.cos θ + v.z * Real.sin θ, v.y, -v.x * Real.sin θ + v.z * Real.cos θ⟩

/-- Rotation about the X axis (right-handed), as `RotateXOp`. -/
noncomputable def rotX (θ : ℝ) (v : Vec3) : Vec3 :=
  ⟨v.x, v.y * Real.cos θ - v.z * Real.sin θ, v.y * Real.sin θ + v.z * Real.cos θ⟩

/-- Modelled from the spec: the reconstruction of a forward vector from a
`(yaw_degrees, pitch_degrees)` pair — "yaw rotation about Y applied to world
-Z, then pitch rotation about the resulting local X", i.e. the world -Z axis
first pitched about X then the result yawed about global Y. -/
noncomputable def forwardFromAngles (yawDeg pitchDeg : ℝ) : Vec3 :=
  rotY (radians yawDeg) (rotX (radians pitchDeg) ⟨0, 0, -1⟩)

/-- The integer frames visited by `range(start, end + 1)`
(`animator.py` line 75): `start, start+1, …, end`, empty when `end < start`. -/
def frameList (start e : ℤ) : List ℤ :=
  (List.range (e + 1 - start).toNat).map (fun (i : ℕ) => start + (i : ℤ))

/-- `generate_orbit_path` (`animator.py` lines 57-83).  For each frame in
`range(start, end + 1)` the Python body computes

    angle = math.radians(360 * (frame - start) / (end - start + 1))
    x = center[0] + math.sin(angle) * radius
    z = center[2] + math.cos(angle) * radius
    y = height

and inserts `(x, y, z)` into `frame_positions` and `center` into
`frame_targets`.  The integer division by `end - start + 1` raises
`ZeroDivisionError` when that divisor is zero, checked here exactly where
the body would divide.  Both dicts are built in increasing frame order and
are modelled as association lists in insertion order. -/
noncomputable def orbitAngle (start e frame : ℤ) : ℝ :=
  radians (360 * ((frame : ℝ) - (start : ℝ)) / ((e : ℝ) - (start : ℝ) + 1))

noncomputable def orbitStep (center : Vec3) (radius height : ℝ) (start e : ℤ)
    (acc : List (ℤ × Vec3) × List (ℤ × Vec3)) (frame : ℤ) :
    Except String (List (ℤ × Vec3) × List (ℤ × Vec3)) :=
  if e - start + 1 = 0 then Except.error "ZeroDivisionError"
  else
    Except.ok
      (acc.1 ++ [(frame,
         ⟨center.x + Real.sin (orbitAngle start e frame) * radius, height,
          center.z + Real.cos (orbitAngle start e frame) * radius⟩)],
       acc.2 ++ [(frame, center)])

noncomputable def generate_orbit_path (center : Vec3) (radius height : ℝ)
    (start e : ℤ) : Except String (List (ℤ × Vec3) × List (ℤ × Vec3)) :=
  (frameList start e).foldlM (orbitStep center radius height start e) ([], [])

/-- `Camera.add_camera` (`camera.py` lines 35-57), abstracted to the
sequence of camera attributes/transform ops it authors, in source order,
paired with the error it raises.  The projection check at line 39 precedes
every `Create*Attr` call; `FocalLength` (line 49) is authored only under
`projection == "perspective"`; a truthy `target` routes through
`_orient_camera_look_at`, which authors translate, rotateY, rotateX
(lines 111-113), otherwise only a translate op is authored (line 55). -/
def addCameraAuthored (projection : String) (hasTarget : Bool) :
    List String × Option String :=
  if projection ≠ "perspective" ∧ projection ≠ "orthographic" then
    ([], some "ValueError: projection must be perspective or orthographic")
  else
    (["projection", "horizontalAperture", "verticalAperture", "clippingRange"]
      ++ (if projection = "perspective" then ["focalLength"] else [])
      ++ (if hasTarget then ["translate", "rotateY", "rotateX"]
          else ["translate"]), none)

/-- `Camera.generate_orbit_cameras` (`camera.py` lines 59-84), abstracted to
the returned list of camera paths together with the per-camera
`(name, position, look-at target)` placements.  For `i` in
`range(num_views)` the Python body computes

    angle = 2 * math.pi * i / num_views
    x = radius * math.cos(angle)
    z = radius * math.sin(angle)
    position = (x, height, z)
    name = f"PREFIX_i"

then calls `add_camera(name, position, target, …)` (valid fixed projection
"perspective", so that call never raises) and appends
`f"ROOT/PREFIX_i"` to `paths`.  The division by `num_views` would raise
`ZeroDivisionError`, checked exactly where the body divides. -/
noncomputable def camStep (root : String) (target : Vec3) (radius height : ℝ)
    (num_views : ℕ) (camPrefix : String)
    (acc : List String × List (String × Vec3 × Vec3)) (i : ℕ) :
    Except String (List String × List (String × Vec3 × Vec3)) :=
  if num_views = 0 then Except.error "ZeroDivisionError"
  else
    let angle := 2 * Real.pi * (i : ℝ) / (num_views : ℝ)
    let pos : Vec3 := ⟨radius * Real.cos angle, height, radius * Real.sin angle⟩
    let name := camPrefix ++ "_" ++ toString i
    Except.ok (acc.1 ++ [root ++ "/" ++ name], acc.2 ++ [(name, pos, target)])

noncomputable def generate_orbit_cameras (root : String) (target : Vec3)
    (radius height : ℝ) (num_views : ℕ) (camPrefix : String) :
    Except String (List String × List (String × Vec3 × Vec3)) :=
  (List.range num_views).foldlM
    (camStep root target radius height num_views camPrefix) ([], [])

/-! ## Helper lemmas -/

/-- Unfolding the orbit-path fold when the frame-count divisor is nonzero:
no iteration errors, and each frame appends one position and one target. -/
theorem orbitPath_fold (center : Vec3) (radius height : ℝ) (start e : ℤ)
    (hne : e - start + 1 ≠ 0) (L : List ℤ)
    (acc : List (ℤ × Vec3) × List (ℤ × Vec3)) :
    L.foldlM (orbitStep center radius height start e) acc =
      Except.ok
        (acc.1 ++ L.map (fun frame =>
          (frame, (⟨center.x + Real.sin (orbitAngle start e frame) * radius,
                    height,
                    center.z + Real.cos (orbitAngle start e frame) * radius⟩ : Vec3))),
         acc.2 ++ L.map (fun frame => (frame, center))) := by
  induction L generalizing acc with
  | nil => simp only [List.foldlM_nil, List.map_nil, List.append_nil]; rfl
  | cons a l ih =>
      have hstep : orbitStep center radius height start e acc a =
          Except.ok
            (acc.1 ++ [(a, (⟨center.x + Real.sin (orbitAngle start e a) * radius,
                height, center.z + Real.cos (orbitAngle start e a) * radius⟩ : Vec3))],
             acc.2 ++ [(a, center)]) := by
        rw [orbitStep, if_neg hne]
      rw [List.foldlM_cons, hstep]
      show l.foldlM (orbitStep center radius height start e) _ = _
      rw [ih]
      simp

/-- Unfolding the orbit-camera fold when `num_views` is nonzero: no
iteration errors; each index appends one path and one placed camera. -/
theorem orbitCameras_fold (root : String) (target : Vec3) (radius height : ℝ)
    (num_views : ℕ) (camPrefix : String) (hn : num_views ≠ 0) (L : List ℕ)
    (acc : List String × List (String × Vec3 × Vec3)) :
    L.foldlM (camStep root target radius height num_views camPrefix) acc =
      Except.ok
        (acc.1 ++ L.map (fun (i : ℕ) => root ++ "/" ++ (camPrefix ++ "_" ++ toString i)),
         acc.2 ++ L.map (fun (i : ℕ) =>
           (camPrefix ++ "_" ++ toString i,
            (⟨radius * Real.cos (2 * Real.pi * (i : ℝ) / (num_views : ℝ)), height,
              radius * Real.sin (2 * Real.pi * (i : ℝ) / (num_views : ℝ))⟩ : Vec3),
            target))) := by
  induction L generalizing acc with
  | nil => simp only [List.foldlM_nil, List.map_nil, List.append_nil]; rfl
  | cons a l ih =>
      have hstep : camStep root target radius height num_views camPrefix acc a =
          Except.ok
            (acc.1 ++ [root ++ "/" ++ (camPrefix ++ "_" ++ toString a)],
             acc.2 ++ [(camPrefix ++ "_" ++ toString a,
               (⟨radius * Real.cos (2 * Real.pi * (a : ℝ) / (num_views : ℝ)), height,
                 radius * Real.sin (2 * Real.pi * (a : ℝ) / (num_views : ℝ))⟩ : Vec3),
               target)]) := by
        rw [camStep, if_neg hn]
      rw [List.foldlM_cons, hstep]
      show l.foldlM _ _ = _
      rw [ih]
      simp

/-! ## Claim theorems -/

/-- C3 (counterexample): at the concrete input `p = (0,0,0)`,
`compute_look_at(p, p)` does not fail — the normalization maps the zero
vector to the zero vector and the code returns `(yaw, pitch) = (0, 0)`,
not a `DegenerateDirection` error. -/
theorem look_at_same_point_counterexample :
    computeLookAt ⟨0, 0, 0⟩ ⟨0, 0, 0⟩ = Except.ok (0, 0) := by
  have hzero : lookDirection ⟨0, 0, 0⟩ ⟨0, 0, 0⟩ = ⟨0, 0, 0⟩ := by
    simp [lookDirection, Vec3.sub, Vec3.getNormalized, Vec3.len]
  have hasin : asinChecked (0 : ℝ) = Except.ok 0 := by
    rw [asinChecked, if_pos (by norm_num), Real.arcsin_zero]
  have hmk : (⟨-(0 : ℝ), -(0 : ℝ)⟩ : Complex) = 0 := by
    apply Complex.ext <;> simp
  have hyaw : lookYawDeg ⟨0, 0, 0⟩ ⟨0, 0, 0⟩ = 0 := by
    rw [lookYawDeg, hzero]
    show degrees (atan2 (-(0 : ℝ)) (-(0 : ℝ))) = 0
    rw [atan2, hmk, Complex.arg_zero, degrees, zero_mul]
  simp only [computeLookAt, hzero, hasin, hyaw, degrees, zero_mul]

/-- C3 (amended): for every point `p`, `compute_look_at(p, p)` returns
normally with `(yaw, pitch) = (0, 0)` in the exact real model (the library
normalization sends the zero direction to the zero vector; no
`DegenerateDirection` check exists anywhere in the code). -/
theorem look_at_same_point_ok (p : Vec3) :
    computeLookAt p p = Except.ok (0, 0) := by
  have hzero : lookDirection p p = ⟨0, 0, 0⟩ := by
    simp [lookDirection, Vec3.sub, Vec3.getNormalized, Vec3.len]
  have hasin : asinChecked (0 : ℝ) = Except.ok 0 := by
    rw [asinChecked, if_pos (by norm_num), Real.arcsin_zero]
  have hmk : (⟨-(0 : ℝ), -(0 : ℝ)⟩ : Complex) = 0 := by
    apply Complex.ext <;> simp
  have hyaw : lookYawDeg p p = 0 := by
    rw [lookYawDeg, hzero]
    show degrees (atan2 (-(0 : ℝ)) (-(0 : ℝ))) = 0
    rw [atan2, hmk, Complex.arg_zero, degrees, zero_mul]
  simp only [computeLookAt, hzero, hasin, hyaw, degrees, zero_mul]

/-- C4 (counterexample): at the concrete call
`generate_orbit_cameras(num_views=0)` with the source defaults, the code
returns normally with an empty path list — no `InvalidArgument` error is
raised (the `for i in range(num_views)` loop body never runs). -/
theorem orbit_cameras_zero_views_counterexample :
    generate_orbit_cameras "/World/Cameras" ⟨0, 0, 0⟩ 10 5 0 "OrbitCam" =
      Except.ok ([], []) := by
  simp only [generate_orbit_cameras, List.range_zero, List.foldlM_nil]
  rfl

/-- C4 (amended): for every root path, target, radius, height and name
prefix, `generate_orbit_cameras` with `num_views = 0` returns normally with
an empty path list and no cameras placed, rather than failing: the code has
no `num_views` validation, and the angle division by `num_views` is never
reached because the loop body never executes. -/
theorem orbit_cameras_zero_views_ok (root : String) (target : Vec3)
    (radius height : ℝ) (camPrefix : String) :
    generate_orbit_cameras root target radius height 0 camPrefix =
      Except.ok ([], []) := by
  simp only [generate_orbit_cameras, List.range_zero, List.foldlM_nil]
  rfl

/-- C5 (code evaluated at the failing input): the source applies
`math.asin` to `direction[1]` with no clamping, so a normalized
y-component that drifts to `1 + 2⁻⁵²` (one ulp above 1, as floating-point
normalization can produce) raises `ValueError: math domain error` instead
of being clamped into `[-1, 1]`. -/
theorem asin_unclamped_domain_error :
    asinChecked (1 + (1 / 2 : ℝ) ^ 52) = Except.error "math domain error" := by
  rw [asinChecked, if_neg]
  rintro ⟨-, h2⟩
  nlinarith [pow_pos (by norm_num : (0 : ℝ) < 1 / 2) 52]

/-- C7: `generate_orbit_path` is deterministic — two calls with pairwise
identical inputs produce identical output sequences.  (Purity holds by
construction of the embedding: the source reads and writes no state
outside its arguments.) -/
theorem orbit_path_deterministic (c c' : Vec3) (r r' h h' : ℝ)
    (s s' e e' : ℤ) (hc : c = c') (hr : r = r') (hh : h = h')
    (hs : s = s') (he : e = e') :
    generate_orbit_path c r h s e = generate_orbit_path c' r' h' s' e' := by
  rw [hc, hr, hh, hs, he]

/-- C7 witness at concrete identical inputs. -/
theorem orbit_path_deterministic_witness :
    generate_orbit_path ⟨0, 0, 0⟩ 10 5 0 3 = generate_orbit_path ⟨0, 0, 0⟩ 10 5 0 3 :=
  orbit_path_deterministic ⟨0, 0, 0⟩ ⟨0, 0, 0⟩ 10 10 5 5 0 0 3 3 rfl rfl rfl rfl rfl

/-- C8: for every empty frame range (`end < start`), `generate_orbit_path`
returns normally with two empty mappings: `range(start, end + 1)` is empty,
so the loop body — and with it the `end - start + 1` divisor — is never
evaluated, and no `ZeroDivisionError` occurs even when `end = start - 1`. -/
theorem orbit_path_empty_range (c : Vec3) (r h : ℝ) (s e : ℤ) (hlt : e < s) :
    generate_orbit_path c r h s e = Except.ok ([], []) := by
  have htn : (e + 1 - s).toNat = 0 := by omega
  rw [generate_orbit_path, frameList, htn]
  simp only [List.range_zero, List.map_nil, List.foldlM_nil]
  rfl

/-- C8 witness: the range `(start, end) = (1, 0)` (`end = start - 1`,
integer divisor would be zero) returns two empty mappings. -/
theorem orbit_path_empty_range_witness :
    (0 : ℤ) < 1 ∧ generate_orbit_path ⟨0, 0, 0⟩ 10 5 1 0 = Except.ok ([], []) :=
  ⟨by decide, orbit_path_empty_range ⟨0, 0, 0⟩ 10 5 1 0 (by decide)⟩

/-- C9: `add_camera` raises `ValueError` for any projection string other
than "perspective" or "orthographic", before authoring any camera
attribute; for exactly those two values no validation error is raised, and
the `FocalLength` attribute is authored iff the projection is
"perspective". -/
theorem add_camera_projection_check (projection : String) (hasTarget : Bool) :
    ((projection ≠ "perspective" ∧ projection ≠ "orthographic") →
      addCameraAuthored projection hasTarget =
        ([], some "ValueError: projection must be perspective or orthographic")) ∧
    ((projection = "perspective" ∨ projection = "orthographic") →
      (addCameraAuthored projection hasTarget).2 = none ∧
      ("focalLength" ∈ (addCameraAuthored projection hasTarget).1 ↔
        projection = "perspective")) := by
  constructor
  · intro hbad
    rw [addCameraAuthored, if_pos hbad]
  · intro hgood
    have hok : ¬(projection ≠ "perspective" ∧ projection ≠ "orthographic") := by
      rcases hgood with h | h <;> simp [h]
    rw [addCameraAuthored, if_neg hok]
    refine ⟨rfl, ?_⟩
    rcases hgood with h | h <;> subst h <;> cases hasTarget <;> decide

/-- C9 witness: concrete instances — the invalid projection "weird" is
rejected with nothing authored; the valid "perspective" authors
`FocalLength`; the valid "orthographic" does not. -/
theorem add_camera_projection_check_witness :
    (("weird" ≠ "perspective" ∧ "weird" ≠ "orthographic") ∧
      addCameraAuthored "weird" true =
        ([], some "ValueError: projection must be perspective or orthographic")) ∧
    ((addCameraAuthored "orthographic" true).2 = none ∧
      ("focalLength" ∈ (addCameraAuthored "orthographic" true).1 ↔
        ("orthographic" : String) = "perspective")) :=
  ⟨⟨by decide, (add_camera_projection_check "weird" true).1 (by decide)⟩,
   (add_camera_projection_check "orthographic" true).2 (Or.inr rfl)⟩

theorem frameList_eq (s e : ℤ) :
    frameList s e = (List.range (e - s + 1).toNat).map (fun (i : ℕ) => s + (i : ℤ)) := by
  rw [frameList, show e + 1 - s = e - s + 1 from by ring]

theorem orbitAngle_add (s e : ℤ) (i : ℕ) :
    orbitAngle s e (s + (i : ℤ)) =
      2 * Real.pi * (i : ℝ) / ((e : ℝ) - (s : ℝ) + 1) := by
  rw [orbitAngle, radians]
  push_cast
  ring

/-- Closed form of `generate_orbit_path` on a nonempty frame range. -/
theorem orbit_path_eq (c : Vec3) (r h : ℝ) (s e : ℤ) (hse : s ≤ e) :
    generate_orbit_path c r h s e = Except.ok
      ((frameList s e).map (fun frame =>
        (frame, (⟨c.x + Real.sin (orbitAngle s e frame) * r, h,
                  c.z + Real.cos (orbitAngle s e frame) * r⟩ : Vec3))),
       (frameList s e).map (fun frame => (frame, c))) := by
  have hne : e - s + 1 ≠ 0 := by omega
  rw [generate_orbit_path, orbitPath_fold c r h s e hne]
  simp

/-- Modelled from the spec's algorithm statement for C2 (for comparison
with the source-derived `generate_orbit_path`): the entry for the i-th
frame of the range has position
`(center.x + sin(2π·i/n)·radius, height, center.z + cos(2π·i/n)·radius)`
with `n = end - start + 1`. -/
noncomputable def specOrbitPositions (c : Vec3) (r h : ℝ) (s e : ℤ) :
    List (ℤ × Vec3) :=
  (List.range (e - s + 1).toNat).map fun (i : ℕ) =>
    (s + (i : ℤ),
     (⟨c.x + Real.sin (2 * Real.pi * (i : ℝ) / ((e : ℝ) - (s : ℝ) + 1)) * r, h,
       c.z + Real.cos (2 * Real.pi * (i : ℝ) / ((e : ℝ) - (s : ℝ) + 1)) * r⟩ : Vec3))

/-- Modelled from the spec's algorithm statement for C2: the target entry
for every frame of the range is `center`, unchanged. -/
def specOrbitTargets (c : Vec3) (s e : ℤ) : List (ℤ × Vec3) :=
  (List.range (e - s + 1).toNat).map fun (i : ℕ) => (s + (i : ℤ), c)

/-- C2: for every center, radius, height and frame range with
`end >= start`, `generate_orbit_path` returns exactly
`n = end - start + 1` position entries and `n` target entries, one per
integer frame of the inclusive range in increasing frame order, the entry
for frame `start + i` having position
`(center.x + sin(2π·i/n)·radius, height, center.z + cos(2π·i/n)·radius)`
and target `center`. -/
theorem orbit_path_spec (c : Vec3) (r h : ℝ) (s e : ℤ) (hse : s ≤ e) :
    generate_orbit_path c r h s e =
      Except.ok (specOrbitPositions c r h s e, specOrbitTargets c s e) ∧
    (specOrbitPositions c r h s e).length = (e - s + 1).toNat ∧
    (specOrbitTargets c s e).length = (e - s + 1).toNat ∧
    List.Pairwise (· < ·) ((specOrbitPositions c r h s e).map Prod.fst) := by
  refine ⟨?_, ?_, ?_, ?_⟩
  · have hpos : ((fun (frame : ℤ) =>
        (frame, (⟨c.x + Real.sin (orbitAngle s e frame) * r, h,
                  c.z + Real.cos (orbitAngle s e frame) * r⟩ : Vec3))) ∘
          fun (i : ℕ) => s + (i : ℤ)) =
        fun (i : ℕ) =>
          ((s + (i : ℤ)),
           (⟨c.x + Real.sin (2 * Real.pi * (i : ℝ) / ((e : ℝ) - (s : ℝ) + 1)) * r, h,
             c.z + Real.cos (2 * Real.pi * (i : ℝ) / ((e : ℝ) - (s : ℝ) + 1)) * r⟩ :
            Vec3)) := by
      funext i
      simp only [Function.comp_apply, orbitAngle_add]
    rw [orbit_path_eq c r h s e hse, frameList_eq, specOrbitPositions,
      specOrbitTargets, List.map_map, List.map_map, hpos]
    rfl
  · simp [specOrbitPositions]
  · simp [specOrbitTargets]
  · rw [specOrbitPositions, List.map_map]
    exact List.Pairwise.map _
      (fun a b hab => by simp only [Function.comp_apply]; omega)
      (List.pairwise_lt_range ((e - s + 1).toNat))

/-- C2 witness at the spec's boundary example `frame_range = (5, 5)`:
one entry at frame 5, angle 0. -/
theorem orbit_path_spec_witness :
    (5 : ℤ) ≤ 5 ∧
    (generate_orbit_path ⟨0, 0, 0⟩ 10 5 5 5 =
        Except.ok (specOrbitPositions ⟨0, 0, 0⟩ 10 5 5 5, specOrbitTargets ⟨0, 0, 0⟩ 5 5) ∧
      (specOrbitPositions ⟨0, 0, 0⟩ 10 5 5 5).length = ((5 : ℤ) - 5 + 1).toNat ∧
      (specOrbitTargets ⟨0, 0, 0⟩ 5 5).length = ((5 : ℤ) - 5 + 1).toNat ∧
      List.Pairwise (· < ·) ((specOrbitPositions ⟨0, 0, 0⟩ 10 5 5 5).map Prod.fst)) :=
  ⟨by decide, orbit_path_spec ⟨0, 0, 0⟩ 10 5 5 5 (by decide)⟩

/-- C6: with `radius = 0` and `end >= start`, every one of the
`n = end - start + 1` positions is `(center.x, height, center.z)` — the
sine/cosine offsets vanish, with no special case in the code. -/
theorem orbit_path_zero_radius (c : Vec3) (h : ℝ) (s e : ℤ) (hse : s ≤ e) :
    generate_orbit_path c 0 h s e = Except.ok
      ((List.range (e - s + 1).toNat).map
         (fun (i : ℕ) => (s + (i : ℤ), (⟨c.x, h, c.z⟩ : Vec3))),
       (List.range (e - s + 1).toNat).map (fun (i : ℕ) => (s + (i : ℤ), c))) ∧
    ((List.range (e - s + 1).toNat).map
        (fun (i : ℕ) => (s + (i : ℤ), (⟨c.x, h, c.z⟩ : Vec3)))).length
      = (e - s + 1).toNat ∧
    ∀ q ∈ (List.range (e - s + 1).toNat).map
        (fun (i : ℕ) => (s + (i : ℤ), (⟨c.x, h, c.z⟩ : Vec3))),
      q.2 = (⟨c.x, h, c.z⟩ : Vec3) := by
  refine ⟨?_, by simp, ?_⟩
  · have hpos : ((fun (frame : ℤ) =>
        (frame, (⟨c.x + Real.sin (orbitAngle s e frame) * 0, h,
                  c.z + Real.cos (orbitAngle s e frame) * 0⟩ : Vec3))) ∘
          fun (i : ℕ) => s + (i : ℤ)) =
        fun (i : ℕ) => ((s + (i : ℤ)), (⟨c.x, h, c.z⟩ : Vec3)) := by
      funext i
      simp only [Function.comp_apply, mul_zero, add_zero]
    rw [orbit_path_eq c 0 h s e hse, frameList_eq, List.map_map, List.map_map, hpos]
    rfl
  · intro q hq
    simp only [List.mem_map] at hq
    obtain ⟨i, -, rfl⟩ := hq
    rfl

/-- C6 witness at `center = (1, 2, 3)`, `height = 5`,
`frame_range = (0, 3)`. -/
theorem orbit_path_zero_radius_witness :
    (0 : ℤ) ≤ 3 ∧
    (generate_orbit_path ⟨1, 2, 3⟩ 0 5 0 3 = Except.ok
        ((List.range ((3 : ℤ) - 0 + 1).toNat).map
           (fun (i : ℕ) => ((0 : ℤ) + (i : ℤ), (⟨(1 : ℝ), 5, 3⟩ : Vec3))),
         (List.range ((3 : ℤ) - 0 + 1).toNat).map
           (fun (i : ℕ) => ((0 : ℤ) + (i : ℤ), (⟨1, 2, 3⟩ : Vec3)))) ∧
      ((List.range ((3 : ℤ) - 0 + 1).toNat).map
          (fun (i : ℕ) => ((0 : ℤ) + (i : ℤ), (⟨(1 : ℝ), 5, 3⟩ : Vec3)))).length
        = ((3 : ℤ) - 0 + 1).toNat ∧
      ∀ q ∈ (List.range ((3 : ℤ) - 0 + 1).toNat).map
          (fun (i : ℕ) => ((0 : ℤ) + (i : ℤ), (⟨(1 : ℝ), 5, 3⟩ : Vec3))),
        q.2 = (⟨(1 : ℝ), 5, 3⟩ : Vec3)) :=
  ⟨by decide, orbit_path_zero_radius ⟨1, 2, 3⟩ 5 0 3 (by decide)⟩

/-- C10: for every `num_views >= 0`, `generate_orbit_cameras` returns
exactly `num_views` path strings, the i-th being
`root_path ++ "/" ++ prefix ++ "_" ++ i` in increasing `i` order, and the
i-th camera is placed at
`(radius·cos(2π·i/num_views), height, radius·sin(2π·i/num_views))`
looking at `target`. -/
theorem orbit_cameras_spec (root : String) (target : Vec3)
    (radius height : ℝ) (num_views : ℕ) (camPrefix : String) :
    generate_orbit_cameras root target radius height num_views camPrefix =
      Except.ok
        ((List.range num_views).map
           (fun (i : ℕ) => root ++ "/" ++ (camPrefix ++ "_" ++ toString i)),
         (List.range num_views).map (fun (i : ℕ) =>
           (camPrefix ++ "_" ++ toString i,
            (⟨radius * Real.cos (2 * Real.pi * (i : ℝ) / (num_views : ℝ)), height,
              radius * Real.sin (2 * Real.pi * (i : ℝ) / (num_views : ℝ))⟩ : Vec3),
            target))) ∧
    ((List.range num_views).map
        (fun (i : ℕ) => root ++ "/" ++ (camPrefix ++ "_" ++ toString i))).length
      = num_views := by
  refine ⟨?_, by simp⟩
  rcases Nat.eq_zero_or_pos num_views with hz | hpos
  · subst hz
    simp only [generate_orbit_cameras, List.range_zero, List.foldlM_nil,
      List.map_nil]
    rfl
  · rw [generate_orbit_cameras,
      orbitCameras_fold root target radius height num_views camPrefix
        (Nat.pos_iff_ne_zero.mp hpos) (List.range num_views) ([], [])]
    simp

theorem Vec3.sub_ne_zero_of_ne (p t : Vec3) (h : p ≠ t) :
    t.sub p ≠ ⟨0, 0, 0⟩ := by
  intro hz
  apply h
  have hx : t.x - p.x = 0 := congrArg Vec3.x hz
  have hy : t.y - p.y = 0 := congrArg Vec3.y hz
  have hzz : t.z - p.z = 0 := congrArg Vec3.z hz
  ext <;> linarith

theorem sumsq_pos (v : Vec3) (hv : v ≠ ⟨0, 0, 0⟩) :
    0 < v.x ^ 2 + v.y ^ 2 + v.z ^ 2 := by
  by_contra hle
  push_neg at hle
  have hx : v.x = 0 := (pow_eq_zero_iff (two_ne_zero)).mp
    (le_antisymm (by nlinarith [sq_nonneg v.y, sq_nonneg v.z]) (sq_nonneg v.x))
  have hy : v.y = 0 := (pow_eq_zero_iff (two_ne_zero)).mp
    (le_antisymm (by nlinarith [sq_nonneg v.x, sq_nonneg v.z]) (sq_nonneg v.y))
  have hz : v.z = 0 := (pow_eq_zero_iff (two_ne_zero)).mp
    (le_antisymm (by nlinarith [sq_nonneg v.x, sq_nonneg v.y]) (sq_nonneg v.z))
  exact hv (by ext <;> assumption)

/-- Normalizing a nonzero vector yields a unit vector (exact reals). -/
theorem getNormalized_unit (v : Vec3) (hv : v ≠ ⟨0, 0, 0⟩) :
    v.getNormalized.x ^ 2 + v.getNormalized.y ^ 2 + v.getNormalized.z ^ 2 = 1 := by
  have hS := sumsq_pos v hv
  have hlen : v.len ^ 2 = v.x ^ 2 + v.y ^ 2 + v.z ^ 2 :=
    Real.sq_sqrt (le_of_lt hS)
  simp only [Vec3.getNormalized]
  rw [div_pow, div_pow, div_pow, div_add_div_same, div_add_div_same, hlen]
  exact div_self (ne_of_gt hS)

theorem radians_degrees (θ : ℝ) : radians (degrees θ) = θ := by
  rw [radians, degrees]
  have hπ : Real.pi ≠ 0 := Real.pi_ne_zero
  field_simp

/-- The forward vector produced by yawing then pitching world `-Z`. -/
theorem rotY_rotX_forward (ya pi : ℝ) :
    rotY ya (rotX pi ⟨0, 0, -1⟩) =
      ⟨-(Real.cos pi * Real.sin ya), Real.sin pi, -(Real.cos pi * Real.cos ya)⟩ := by
  ext <;> simp [rotX, rotY]

/-- Core geometric fact: for a unit direction `d`, the angles
`yaw = atan2(-dx, -dz)`, `pitch = asin(dy)` (in degrees) reconstruct `d`
when world `-Z` is rotated by pitch about X and then yaw about Y. -/
theorem forward_of_unit (d : Vec3)
    (hd : d.x ^ 2 + d.y ^ 2 + d.z ^ 2 = 1) :
    forwardFromAngles (degrees (atan2 (-d.x) (-d.z)))
      (degrees (Real.arcsin d.y)) = d := by
  have hy1 : -1 ≤ d.y := by
    nlinarith [sq_nonneg (d.y + 1), sq_nonneg d.x, sq_nonneg d.z]
  have hy2 : d.y ≤ 1 := by
    nlinarith [sq_nonneg (d.y - 1), sq_nonneg d.x, sq_nonneg d.z]
  have hsin : Real.sin (Real.arcsin d.y) = d.y := Real.sin_arcsin hy1 hy2
  have hxz : 1 - d.y ^ 2 = d.x ^ 2 + d.z ^ 2 := by nlinarith
  have hcos : Real.cos (Real.arcsin d.y) = Real.sqrt (d.x ^ 2 + d.z ^ 2) := by
    rw [Real.cos_arcsin, hxz]
  rw [forwardFromAngles, radians_degrees, radians_degrees, rotY_rotX_forward]
  rcases eq_or_lt_of_le (by positivity : (0 : ℝ) ≤ d.x ^ 2 + d.z ^ 2) with hA0 | hApos
  · -- degenerate azimuth: direction straight up or down, cos(pitch) = 0
    have hx : d.x = 0 := (pow_eq_zero_iff (two_ne_zero)).mp
      (le_antisymm (by nlinarith [sq_nonneg d.z]) (sq_nonneg d.x))
    have hz : d.z = 0 := (pow_eq_zero_iff (two_ne_zero)).mp
      (le_antisymm (by nlinarith [sq_nonneg d.x]) (sq_nonneg d.z))
    have hcos0 : Real.cos (Real.arcsin d.y) = 0 := by
      rw [hcos, ← hA0, Real.sqrt_zero]
    ext
    · simp [hcos0, hx]
    · exact hsin
    · simp [hcos0, hz]
  · -- generic azimuth: use the complex argument of (-dz, -dx)
    have hAp : 0 < Real.sqrt (d.x ^ 2 + d.z ^ 2) := Real.sqrt_pos.mpr hApos
    have hAne : Real.sqrt (d.x ^ 2 + d.z ^ 2) ≠ 0 := ne_of_gt hAp
    have hzc : (⟨-d.z, -d.x⟩ : Complex) ≠ 0 := by
      intro h0
      have hre : -d.z = 0 := congrArg Complex.re h0
      have him : -d.x = 0 := congrArg Complex.im h0
      rw [neg_eq_zero] at hre him
      rw [hre, him] at hApos
      norm_num at hApos
    have habs : Complex.abs ⟨-d.z, -d.x⟩ = Real.sqrt (d.x ^ 2 + d.z ^ 2) := by
      rw [Complex.abs_apply, Complex.normSq_mk]
      exact congrArg Real.sqrt (by ring)
    have hsy : Real.sin (atan2 (-d.x) (-d.z)) =
        -d.x / Real.sqrt (d.x ^ 2 + d.z ^ 2) := by
      rw [atan2, Complex.sin_arg, habs]
    have hcy : Real.cos (atan2 (-d.x) (-d.z)) =
        -d.z / Real.sqrt (d.x ^ 2 + d.z ^ 2) := by
      rw [atan2, Complex.cos_arg hzc, habs]
    ext
    · rw [show (Vec3.mk (-(Real.cos (Real.arcsin d.y) * Real.sin (atan2 (-d.x) (-d.z))))
          (Real.sin (Real.arcsin d.y))
          (-(Real.cos (Real.arcsin d.y) * Real.cos (atan2 (-d.x) (-d.z))))).x
          = -(Real.cos (Real.arcsin d.y) * Real.sin (atan2 (-d.x) (-d.z))) from rfl,
        hcos, hsy]
      field_simp
    · exact hsin
    · rw [show (Vec3.mk (-(Real.cos (Real.arcsin d.y) * Real.sin (atan2 (-d.x) (-d.z))))
          (Real.sin (Real.arcsin d.y))
          (-(Real.cos (Real.arcsin d.y) * Real.cos (atan2 (-d.x) (-d.z))))).z
          = -(Real.cos (Real.arcsin d.y) * Real.cos (atan2 (-d.x) (-d.z))) from rfl,
        hcos, hcy]
      field_simp

/-- C1: for every `position != target`, the look-at computation returns
`(yaw, pitch) = (degrees(atan2(-dx, -dz)), degrees(asin(dy)))` for the
normalized direction `(dx, dy, dz)`, and re-deriving a forward vector by
rotating world `-Z` by yaw about the global Y axis and then by pitch about
the resulting local X axis reproduces that direction exactly over the
reals. -/
theorem look_at_correct (p t : Vec3) (hpt : p ≠ t) :
    computeLookAt p t = Except.ok (lookYawDeg p t, lookPitchDeg p t) ∧
    forwardFromAngles (lookYawDeg p t) (lookPitchDeg p t) = lookDirection p t := by
  have hsub : t.sub p ≠ ⟨0, 0, 0⟩ := Vec3.sub_ne_zero_of_ne p t hpt
  have hunit : (lookDirection p t).x ^ 2 + (lookDirection p t).y ^ 2 +
      (lookDirection p t).z ^ 2 = 1 := by
    rw [lookDirection]
    exact getNormalized_unit _ hsub
  constructor
  · have hy1 : -1 ≤ (lookDirection p t).y := by
      nlinarith [sq_nonneg ((lookDirection p t).y + 1),
        sq_nonneg (lookDirection p t).x, sq_nonneg (lookDirection p t).z]
    have hy2 : (lookDirection p t).y ≤ 1 := by
      nlinarith [sq_nonneg ((lookDirection p t).y - 1),
        sq_nonneg (lookDirection p t).x, sq_nonneg (lookDirection p t).z]
    have ha : asinChecked (lookDirection p t).y =
        Except.ok (Real.arcsin (lookDirection p t).y) := by
      rw [asinChecked, if_pos ⟨hy1, hy2⟩]
    simp only [computeLookAt, ha]
    rfl
  · rw [lookYawDeg, lookPitchDeg]
    exact forward_of_unit (lookDirection p t) hunit

/-- C1 witness at `position = (0,0,0)`, `target = (0,0,-1)`. -/
theorem look_at_correct_witness :
    ((⟨0, 0, 0⟩ : Vec3) ≠ ⟨0, 0, -1⟩) ∧
    (computeLookAt ⟨0, 0, 0⟩ ⟨0, 0, -1⟩ =
        Except.ok (lookYawDeg ⟨0, 0, 0⟩ ⟨0, 0, -1⟩, lookPitchDeg ⟨0, 0, 0⟩ ⟨0, 0, -1⟩) ∧
      forwardFromAngles (lookYawDeg ⟨0, 0, 0⟩ ⟨0, 0, -1⟩)
          (lookPitchDeg ⟨0, 0, 0⟩ ⟨0, 0, -1⟩) =
        lookDirection ⟨0, 0, 0⟩ ⟨0, 0, -1⟩) := by
  have hne : (⟨0, 0, 0⟩ : Vec3) ≠ ⟨0, 0, -1⟩ := by
    intro hcontra
    have hz : (0 : ℝ) = -1 := congrArg Vec3.z hcontra
    norm_num at hz
  exact ⟨hne, look_at_correct _ _ hne⟩

end USDSceneGen
